import Mathlib

/-!
Shallow embedding of the disk-measurement scripts of the heliosphere
repository, and proofs about them.

Embedded code:
* `measure_disk.py` / `measure_occulting_disk`: threshold-scan edge detection
  on one horizontal scanline of color pixels.
* `measure_sun.py` / `measure_sun_disk`: gradient-extremum edge detection on
  one horizontal scanline of grayscale pixels (via `np.gradient`,
  `np.argmax`, `np.argmin`).
* `verification/verify_composite.py` / `run`: try/except/finally control flow
  around page navigation and screenshot capture.

A scanline is embedded as the list of pixels read along the image's
horizontal centerline; image decoding itself is outside the model.
-/

namespace Heliosphere

/-! ### Threshold-scan policy: `measure_disk.py` -/

/-- A color pixel's first three channels, as read by `img.getpixel` in
`measure_disk.py` (a possible alpha channel is dropped by `pixel[:3]`). -/
abbrev Pixel := ℕ × ℕ × ℕ

/-- Combined brightness `sum(pixel[:3])` of `measure_disk.py`. -/
def combined (p : Pixel) : ℕ := p.1 + p.2.1 + p.2.2

/-- The center column `center_x = width // 2` of `measure_occulting_disk`. -/
def center_x (s : List Pixel) : ℕ := s.length / 2

/-- Whether the pixel at column `x` of scanline `s` passes the brightness
test `sum(pixel[:3]) > 10` of `measure_occulting_disk`. All columns the
loops visit are within range, so a default pixel of `(0, 0, 0)` is never
consulted there. -/
def brightAt (s : List Pixel) (x : ℕ) : Bool :=
  decide (10 < combined (s.getD x (0, 0, 0)))

/-- Columns visited, in order, by the loop `for x in range(center_x, width)`
of `measure_occulting_disk`. -/
def rightScanCols (s : List Pixel) : List ℕ :=
  List.range' (center_x s) (s.length - center_x s)

/-- Columns visited, in order, by the loop `for x in range(center_x, 0, -1)`
of `measure_occulting_disk`: `center_x, center_x - 1, ..., 1`. -/
def leftScanCols (s : List Pixel) : List ℕ :=
  (List.range' 1 (center_x s)).reverse

/-- The `right_edge` of `measure_occulting_disk`: the first column of the
rightward scan whose combined brightness exceeds 10; if the loop finds none,
the initial value `center_x` stands. -/
def right_edge (s : List Pixel) : ℕ :=
  ((rightScanCols s).find? (brightAt s)).getD (center_x s)

/-- The `left_edge` of `measure_occulting_disk`: the first column of the
leftward scan whose combined brightness exceeds 10; if the loop finds none,
the initial value `center_x` stands. -/
def left_edge (s : List Pixel) : ℕ :=
  ((leftScanCols s).find? (brightAt s)).getD (center_x s)

/-- The diameter `right_edge - left_edge` returned by
`measure_occulting_disk`. -/
def measure_occulting_disk (s : List Pixel) : ℤ :=
  (right_edge s : ℤ) - (left_edge s : ℤ)

/-! ### Gradient-extremum policy: `measure_sun.py` -/

/-- One entry of `np.gradient(pixels_array)` (default `edge_order=1`):
one-sided difference at the two boundary indices, central difference at
interior indices. Element accesses go through `List.get?` so that an
out-of-range access would surface as `none`; the input holds the grayscale
pixel values, the result is exact rational arithmetic (the float values
`np.gradient` produces on pixel data are exact halves of integers). -/
def gradAt (l : List ℤ) (i : ℕ) : Option ℚ :=
  if i = 0 then
    (l[1]? : Option ℤ).bind fun a => (l[0]? : Option ℤ).map fun b => (a : ℚ) - (b : ℚ)
  else if i = l.length - 1 then
    (l[l.length - 1]?).bind fun a =>
      (l[l.length - 2]?).map fun b => (a : ℚ) - (b : ℚ)
  else
    (l[i + 1]?).bind fun a =>
      (l[i - 1]?).map fun b => ((a : ℚ) - (b : ℚ)) / 2

/-- The whole array `np.gradient(pixels_array)`. `np.gradient` raises
`ValueError` on arrays of fewer than two elements; that failure, and any
out-of-range element access, is modelled by `none`. -/
def npGradient (l : List ℤ) : Option (List ℚ) :=
  if l.length < 2 then none
  else (List.range l.length).mapM (gradAt l)

/-- Whether `l` attains its maximum at index `i`. -/
def isMaxAt (l : List ℚ) (i : ℕ) : Bool :=
  l.all fun x => decide (x ≤ l.getD i 0)

/-- The `np.argmax` semantics: index of the first occurrence of the maximum
value, i.e. the first index whose value is greater than or equal to every
value of the list. -/
def argmax (l : List ℚ) : ℕ :=
  ((List.range l.length).find? (isMaxAt l)).getD 0

/-- Whether `l` attains its minimum at index `i`. -/
def isMinAt (l : List ℚ) (i : ℕ) : Bool :=
  l.all fun x => decide (l.getD i 0 ≤ x)

/-- The `np.argmin` semantics: index of the first occurrence of the minimum
value. -/
def argmin (l : List ℚ) : ℕ :=
  ((List.range l.length).find? (isMinAt l)).getD 0

/-- The pair `(left_edge, right_edge) = (np.argmax(gradient),
np.argmin(gradient))` computed by `measure_sun_disk` on a grayscale
scanline. -/
def sunEdges (l : List ℤ) : Option (ℕ × ℕ) :=
  (npGradient l).map fun g => (argmax g, argmin g)

/-- The diameter `right_edge - left_edge` returned by `measure_sun_disk`. -/
def measure_sun_disk (l : List ℤ) : Option ℤ :=
  (sunEdges l).map fun e => (e.2 : ℤ) - (e.1 : ℤ)

/-- One entry of the gradient as the specification words it: forward
difference at index 0, backward difference at index `W - 1`, central
difference at every interior index. -/
def specGradD (l : List ℤ) (i : ℕ) : ℚ :=
  if i = 0 then ((l.getD 1 0 : ℤ) : ℚ) - ((l.getD 0 0 : ℤ) : ℚ)
  else if i = l.length - 1 then
    ((l.getD (l.length - 1) 0 : ℤ) : ℚ) - ((l.getD (l.length - 2) 0 : ℤ) : ℚ)
  else (((l.getD (i + 1) 0 : ℤ) : ℚ) - ((l.getD (i - 1) 0 : ℤ) : ℚ)) / 2

/-- Gradient of the full brightness sequence as the specification words it:
`specGradD` applied at every index. -/
def specGradient (l : List ℤ) : List ℚ :=
  (List.range l.length).map (specGradD l)

/-- Grayscale value of a test scanline that is 0 everywhere except a plateau
of value 255 on indices `[a, b]`. -/
def plateauPix (a b k : ℕ) : ℤ := if a ≤ k ∧ k ≤ b then 255 else 0

/-- A test scanline of width `W` that is 0 everywhere except a plateau of
value 255 on indices `[a, b]`. -/
def plateau (W a b : ℕ) : List ℤ := (List.range W).map (plateauPix a b)

/-! ### Browser automation: `verification/verify_composite.py` -/

/-- Observable outcome of one execution of `run` in
`verify_composite.py`: the lines printed to standard output and whether
`browser.close()` ran. -/
structure BrowserRun where
  printed : List String
  browserClosed : Bool
  deriving DecidableEq

/-- The `run` function of `verify_composite.py`. The outcomes of
`page.goto` and `page.screenshot` are environmental and passed in as
`Except` values (`Except.error e` models the call raising an exception with
message `e`). An exception inside the `try` block skips the rest of the
block, is caught by the catch-all `except`, which prints
`f"An error occurred: {e}"`; the `finally` block closes the browser on every
path. -/
def run (goto shot : Except String Unit) : BrowserRun :=
  match goto with
  | .error e => ⟨["An error occurred: " ++ e], true⟩
  | .ok _ =>
    match shot with
    | .error e => ⟨["An error occurred: " ++ e], true⟩
    | .ok _ => ⟨[], true⟩

/-! ### Concrete test scanlines -/

/-- A width-5 color scanline that is black except a brightness-255 plateau on
columns 1..3 (each bright pixel sums to 255 over its three channels); its
center column 2 is the plateau's center. -/
def sampleBrightPlateau : List Pixel :=
  [(0, 0, 0), (85, 85, 85), (85, 85, 85), (85, 85, 85), (0, 0, 0)]

/-- A width-7 color scanline with a black occulting disk on columns 2..4 over
a bright background, the centered-disk setting `measure_occulting_disk` is
written for. -/
def sampleDarkDisk : List Pixel :=
  [(85, 85, 85), (85, 85, 85), (0, 0, 0), (0, 0, 0), (0, 0, 0),
    (85, 85, 85), (85, 85, 85)]

/-- A width-4 uniformly black scanline. -/
def sampleZero : List Pixel := [(0, 0, 0), (0, 0, 0), (0, 0, 0), (0, 0, 0)]

/-! ### Helper lemmas -/

/-- A `find?` over an ascending unit-step range returns the least element
satisfying the predicate. -/
lemma find?_range'_eq_some (p : ℕ → Bool) :
    ∀ (n s k : ℕ), s ≤ k → k < s + n → p k = true →
      (∀ j, s ≤ j → j < k → p j = false) →
      (List.range' s n).find? p = some k := by
  intro n
  induction n with
  | zero => intro s k h1 h2; omega
  | succ m ih =>
    intro s k h1 h2 hk hfirst
    rw [List.range'_succ]
    rcases Nat.eq_or_lt_of_le h1 with rfl | hlt
    · exact List.find?_cons_of_pos _ hk
    · rw [List.find?_cons_of_neg _ (by simp [hfirst s le_rfl hlt])]
      exact ih (s + 1) k hlt (by omega) hk fun j hj1 hj2 => hfirst j (by omega) hj2

/-- A `find?` over an ascending unit-step range finds nothing when no element
satisfies the predicate. -/
lemma find?_range'_eq_none (p : ℕ → Bool) (s n : ℕ)
    (h : ∀ j, s ≤ j → j < s + n → p j = false) :
    (List.range' s n).find? p = none := by
  rw [List.find?_eq_none]
  intro x hx
  rw [List.mem_range'_1] at hx
  simp [h x hx.1 hx.2]

/-- Unfolding of the reversed range `[c+1, c, ..., 1]` at its head. -/
lemma reverse_range'_succ (c : ℕ) :
    (List.range' 1 (c + 1)).reverse = (c + 1) :: (List.range' 1 c).reverse := by
  rw [List.range'_1_concat, List.reverse_append]
  simp [Nat.add_comm]

/-- A `find?` over the descending range `[c, c-1, ..., 1]` returns the
greatest element satisfying the predicate. -/
lemma find?_rev_range'_eq_some (p : ℕ → Bool) :
    ∀ (c k : ℕ), 1 ≤ k → k ≤ c → p k = true →
      (∀ j, k < j → j ≤ c → p j = false) →
      ((List.range' 1 c).reverse).find? p = some k := by
  intro c
  induction c with
  | zero => intro k h1 h2; omega
  | succ m ih =>
    intro k h1 h2 hk hlast
    rw [reverse_range'_succ]
    rcases Nat.eq_or_lt_of_le h2 with rfl | hlt
    · exact List.find?_cons_of_pos _ hk
    · rw [List.find?_cons_of_neg _ (by simp [hlast (m + 1) (by omega) le_rfl])]
      exact ih k h1 (by omega) hk fun j hj1 hj2 => hlast j hj1 (by omega)

/-- A `find?` over the descending range `[c, c-1, ..., 1]` finds nothing when
no element satisfies the predicate. -/
lemma find?_rev_range'_eq_none (p : ℕ → Bool) (c : ℕ)
    (h : ∀ j, 1 ≤ j → j ≤ c → p j = false) :
    ((List.range' 1 c).reverse).find? p = none := by
  rw [List.find?_eq_none]
  intro x hx
  rw [List.mem_reverse, List.mem_range'_1] at hx
  simp [h x hx.1 (by omega)]

/-- A `getD` read of a mapped range evaluates the mapped function. -/
lemma getD_map_range {β : Type} (n : ℕ) (f : ℕ → β) (d : β) {j : ℕ}
    (hj : j < n) :
    (((List.range n).map f).getD j d) = f j := by
  rw [List.getD_eq_getElem?_getD, List.getElem?_map, List.getElem?_range hj]
  rfl

/-- An in-range optional read is `some` of the defaulted read. -/
lemma getElem?_eq_some_getD {α : Type} {l : List α} {k : ℕ} (d : α)
    (hk : k < l.length) : l[k]? = some (l.getD k d) := by
  rw [List.getD_eq_getElem?_getD, List.getElem?_eq_getElem hk]
  rfl

/-- An `Option`-valued `mapM` whose entries all succeed is `some` of the
pointwise `map`. -/
lemma mapM_eq_some_map {α β : Type} (f : α → Option β) (g : α → β) :
    ∀ xs : List α, (∀ x ∈ xs, f x = some (g x)) → xs.mapM f = some (xs.map g) := by
  intro xs
  induction xs with
  | nil => intro _; rfl
  | cons a as ih =>
    intro h
    rw [List.mapM_cons, h a (List.mem_cons_self a as),
      ih fun x hx => h x (List.mem_cons_of_mem a hx)]
    rfl

/-- An in-range defaulted read equals the total read. -/
lemma getD_eq_getElem {α : Type} {l : List α} {k : ℕ} (d : α)
    (hk : k < l.length) : l.getD k d = l[k] := by
  rw [List.getD_eq_getElem?_getD, List.getElem?_eq_getElem hk]
  rfl

/-- An in-range defaulted read is a member of the list. -/
lemma getD_mem {α : Type} {l : List α} {k : ℕ} (d : α) (hk : k < l.length) :
    l.getD k d ∈ l := by
  rw [getD_eq_getElem d hk]
  exact List.getElem_mem hk

/-- Characterization of `argmax`: it returns any index whose value dominates
the whole list and strictly dominates every earlier value. -/
lemma argmax_eq_of {l : List ℚ} {k : ℕ} (hk : k < l.length)
    (hmax : ∀ j, j < l.length → l.getD j 0 ≤ l.getD k 0)
    (hfirst : ∀ j, j < k → l.getD j 0 < l.getD k 0) :
    argmax l = k := by
  have h1 : (List.range' 0 l.length).find? (isMaxAt l) = some k := by
    apply find?_range'_eq_some _ _ _ _ (Nat.zero_le k) (by omega)
    · unfold isMaxAt
      rw [List.all_eq_true]
      intro x hx
      obtain ⟨n, hn, rfl⟩ := List.mem_iff_getElem.mp hx
      rw [decide_eq_true_eq, ← getD_eq_getElem 0 hn]
      exact hmax n hn
    · intro j _ hjk
      by_contra hb
      rw [Bool.not_eq_false] at hb
      unfold isMaxAt at hb
      rw [List.all_eq_true] at hb
      have h2 := hb (l.getD k 0) (getD_mem 0 hk)
      rw [decide_eq_true_eq] at h2
      exact absurd h2 (not_le.mpr (hfirst j hjk))
  unfold argmax
  rw [List.range_eq_range', h1]
  rfl

/-- Characterization of `argmin`: it returns any index whose value is below
the whole list and strictly below every earlier value. -/
lemma argmin_eq_of {l : List ℚ} {k : ℕ} (hk : k < l.length)
    (hmin : ∀ j, j < l.length → l.getD k 0 ≤ l.getD j 0)
    (hfirst : ∀ j, j < k → l.getD k 0 < l.getD j 0) :
    argmin l = k := by
  have h1 : (List.range' 0 l.length).find? (isMinAt l) = some k := by
    apply find?_range'_eq_some _ _ _ _ (Nat.zero_le k) (by omega)
    · unfold isMinAt
      rw [List.all_eq_true]
      intro x hx
      obtain ⟨n, hn, rfl⟩ := List.mem_iff_getElem.mp hx
      rw [decide_eq_true_eq, ← getD_eq_getElem 0 hn]
      exact hmin n hn
    · intro j _ hjk
      by_contra hb
      rw [Bool.not_eq_false] at hb
      unfold isMinAt at hb
      rw [List.all_eq_true] at hb
      have h2 := hb (l.getD k 0) (getD_mem 0 hk)
      rw [decide_eq_true_eq] at h2
      exact absurd h2 (not_le.mpr (hfirst j hjk))
  unfold argmin
  rw [List.range_eq_range', h1]
  rfl

/-- Length of the specification-side gradient. -/
lemma specGradient_length (l : List ℤ) : (specGradient l).length = l.length := by
  simp [specGradient]

/-- Entries of the specification-side gradient. -/
lemma specGradient_getD {l : List ℤ} {j : ℕ} (hj : j < l.length) :
    (specGradient l).getD j 0 = specGradD l j :=
  getD_map_range l.length (specGradD l) 0 hj

/-- On sequences of length at least two, each optional gradient entry of the
code-side `np.gradient` model succeeds and agrees with the
specification-side entry. -/
lemma gradAt_eq_specGradD {l : List ℤ} (h2 : 2 ≤ l.length) {i : ℕ}
    (hi : i < l.length) : gradAt l i = some (specGradD l i) := by
  unfold gradAt specGradD
  split_ifs with h0 hlast
  · rw [getElem?_eq_some_getD 0 (by omega), getElem?_eq_some_getD 0 (by omega)]
    rfl
  · rw [getElem?_eq_some_getD 0 (by omega), getElem?_eq_some_getD 0 (by omega)]
    rfl
  · rw [getElem?_eq_some_getD 0 (by omega), getElem?_eq_some_getD 0 (by omega)]
    rfl

/-- On sequences of length at least two, the code-side `np.gradient` model
succeeds and returns the specification-side gradient. -/
lemma npGradient_eq_spec {l : List ℤ} (h2 : 2 ≤ l.length) :
    npGradient l = some (specGradient l) := by
  unfold npGradient
  rw [if_neg (by omega)]
  exact mapM_eq_some_map (gradAt l) (specGradD l) (List.range l.length)
    fun i hi => gradAt_eq_specGradD h2 (List.mem_range.mp hi)

/-- On sequences of length at least two, the edges of `measure_sun_disk` are
the argmax/argmin of the specification-side gradient. -/
lemma sunEdges_eq_spec {l : List ℤ} (h2 : 2 ≤ l.length) :
    sunEdges l = some (argmax (specGradient l), argmin (specGradient l)) := by
  unfold sunEdges
  rw [npGradient_eq_spec h2]
  rfl

/-- Width of the plateau test scanline. -/
lemma plateau_length (W a b : ℕ) : (plateau W a b).length = W := by
  simp [plateau]

/-- Entries of the plateau test scanline. -/
lemma plateau_getD {W a b k : ℕ} (hk : k < W) :
    (plateau W a b).getD k 0 = plateauPix a b k :=
  getD_map_range W (plateauPix a b) 0 hk

/-- Plateau samples inside `[a, b]` read 255. -/
lemma plateauPix_in {a b k : ℕ} (h1 : a ≤ k) (h2 : k ≤ b) :
    plateauPix a b k = 255 := if_pos ⟨h1, h2⟩

/-- Plateau samples outside `[a, b]` read 0. -/
lemma plateauPix_out {a b k : ℕ} (h : k < a ∨ b < k) : plateauPix a b k = 0 := by
  unfold plateauPix
  rw [if_neg]
  omega

/-- Plateau samples are non-negative. -/
lemma plateauPix_nonneg (a b k : ℕ) : 0 ≤ plateauPix a b k := by
  unfold plateauPix
  split_ifs <;> omega

/-- Plateau samples are at most 255. -/
lemma plateauPix_le (a b k : ℕ) : plateauPix a b k ≤ 255 := by
  unfold plateauPix
  split_ifs <;> omega

/-- The specification-side gradient of the plateau scanline, entry by entry,
in terms of `plateauPix`. -/
lemma specGradD_plateau {W a b : ℕ} (hW : 2 ≤ W) {j : ℕ} (hj : j < W) :
    specGradD (plateau W a b) j =
      if j = 0 then ((plateauPix a b 1 : ℤ) : ℚ) - ((plateauPix a b 0 : ℤ) : ℚ)
      else if j = W - 1 then
        ((plateauPix a b (W - 1) : ℤ) : ℚ) - ((plateauPix a b (W - 2) : ℤ) : ℚ)
      else
        (((plateauPix a b (j + 1) : ℤ) : ℚ) - ((plateauPix a b (j - 1) : ℤ) : ℚ)) / 2 := by
  unfold specGradD
  rw [plateau_length]
  split_ifs with h0 hlast
  · rw [plateau_getD (show (1 : ℕ) < W by omega), plateau_getD (show (0 : ℕ) < W by omega)]
  · rw [plateau_getD (show W - 1 < W by omega), plateau_getD (show W - 2 < W by omega)]
  · rw [plateau_getD (show j + 1 < W by omega), plateau_getD (show j - 1 < W by omega)]

/-- On a plateau scanline with `0 < a ≤ b < W - 1`, the maximum of the
gradient is first attained at index `a - 1`: the rising step from index
`a - 1` to `a` gives the central difference the same value at `a - 1` as at
`a`, and `np.argmax` keeps the first of the two (when `a = 1` the one-sided
boundary difference at index 0 is even larger). -/
lemma plateau_argmax {W a b : ℕ} (h1 : 0 < a) (h2 : a ≤ b) (h3 : b < W - 1) :
    argmax (specGradient (plateau W a b)) = a - 1 := by
  have hW : 3 ≤ W := by omega
  have hlen : (specGradient (plateau W a b)).length = W := by
    rw [specGradient_length, plateau_length]
  have B0 : ∀ k, (0 : ℚ) ≤ ((plateauPix a b k : ℤ) : ℚ) := fun k => by
    exact_mod_cast plateauPix_nonneg a b k
  have B1 : ∀ k, ((plateauPix a b k : ℤ) : ℚ) ≤ 255 := fun k => by
    exact_mod_cast plateauPix_le a b k
  have hget : ∀ j, j < W →
      (specGradient (plateau W a b)).getD j 0 = specGradD (plateau W a b) j :=
    fun j hj => specGradient_getD (by rw [plateau_length]; omega)
  have hM : (specGradient (plateau W a b)).getD (a - 1) 0 =
      if a = 1 then (255 : ℚ) else 255 / 2 := by
    rw [hget (a - 1) (by omega), specGradD_plateau (by omega) (show a - 1 < W by omega)]
    by_cases ha1 : a = 1
    · rw [show a - 1 = 0 by omega, if_pos rfl, if_pos ha1,
        plateauPix_in (by omega) (by omega),
        plateauPix_out (Or.inl (show (0 : ℕ) < a from h1))]
      norm_num
    · rw [if_neg (by omega), if_neg (by omega), if_neg ha1,
        show a - 1 + 1 = a by omega, show a - 1 - 1 = a - 2 by omega,
        plateauPix_in le_rfl h2, plateauPix_out (Or.inl (by omega))]
      norm_num
  refine argmax_eq_of (by rw [hlen]; omega) ?_ ?_
  · intro j hj
    rw [hlen] at hj
    rw [hM, hget j hj, specGradD_plateau (by omega) hj]
    split_ifs
    · linarith [B0 0, B1 1]
    · rw [plateauPix_out (show (1 : ℕ) < a ∨ b < 1 from Or.inl (by omega)),
        plateauPix_out (Or.inl (show (0 : ℕ) < a from h1))]
      norm_num
    · linarith [B1 (W - 1), B0 (W - 2)]
    · rw [plateauPix_out (Or.inr (show b < W - 1 from h3))]
      simp only [Int.cast_zero]
      linarith [B0 (W - 2)]
    · linarith [B1 (j + 1), B0 (j - 1)]
    · linarith [B1 (j + 1), B0 (j - 1)]
  · intro j hj
    rw [hM, if_neg (by omega), hget j (by omega),
      specGradD_plateau (by omega) (show j < W by omega)]
    split_ifs
    · rw [plateauPix_out (show (1 : ℕ) < a ∨ b < 1 from Or.inl (by omega)),
        plateauPix_out (Or.inl (show (0 : ℕ) < a from h1))]
      norm_num
    · exfalso
      omega
    · rw [plateauPix_out (Or.inl (show j + 1 < a by omega)),
        plateauPix_out (Or.inl (show j - 1 < a by omega))]
      norm_num

/-- On a plateau scanline with `0 < a ≤ b < W - 1`, the minimum of the
gradient is first attained at index `b` when the falling step is interior
and the plateau is wider than one sample, and at index `b + 1` otherwise:
for a one-sample plateau the central difference at `b` itself is 0, and for
`b = W - 2` the one-sided boundary difference at `W - 1` is steeper than
every central difference. -/
lemma plateau_argmin {W a b : ℕ} (h1 : 0 < a) (h2 : a ≤ b) (h3 : b < W - 1) :
    argmin (specGradient (plateau W a b)) =
      if a < b ∧ b < W - 2 then b else b + 1 := by
  have hW : 3 ≤ W := by omega
  have hlen : (specGradient (plateau W a b)).length = W := by
    rw [specGradient_length, plateau_length]
  have B0 : ∀ k, (0 : ℚ) ≤ ((plateauPix a b k : ℤ) : ℚ) := fun k => by
    exact_mod_cast plateauPix_nonneg a b k
  have B1 : ∀ k, ((plateauPix a b k : ℤ) : ℚ) ≤ 255 := fun k => by
    exact_mod_cast plateauPix_le a b k
  have hget : ∀ j, j < W →
      (specGradient (plateau W a b)).getD j 0 = specGradD (plateau W a b) j :=
    fun j hj => specGradient_getD (by rw [plateau_length]; omega)
  by_cases hbW : b = W - 2
  · rw [if_neg (by omega)]
    have hm : (specGradient (plateau W a b)).getD (b + 1) 0 = -255 := by
      rw [hget (b + 1) (by omega), specGradD_plateau (by omega) (show b + 1 < W by omega),
        if_neg (by omega), if_pos (by omega),
        plateauPix_out (Or.inr (show b < W - 1 from h3)),
        plateauPix_in (show a ≤ W - 2 by omega) (show W - 2 ≤ b by omega)]
      norm_num
    refine argmin_eq_of (by rw [hlen]; omega) ?_ ?_
    · intro j hj
      rw [hlen] at hj
      rw [hm, hget j hj, specGradD_plateau (by omega) hj]
      split_ifs
      · linarith [B0 1, B1 0]
      · linarith [B0 (W - 1), B1 (W - 2)]
      · linarith [B0 (j + 1), B1 (j - 1)]
    · intro j hj
      rw [hm, hget j (by omega), specGradD_plateau (by omega) (show j < W by omega)]
      split_ifs
      · rw [plateauPix_out (Or.inl (show (0 : ℕ) < a from h1))]
        simp only [Int.cast_zero]
        linarith [B0 1]
      · exfalso
        omega
      · linarith [B0 (j + 1), B1 (j - 1)]
  · have hb3 : b < W - 2 := by omega
    by_cases hab : a < b
    · rw [if_pos ⟨hab, hb3⟩]
      have hm : (specGradient (plateau W a b)).getD b 0 = -255 / 2 := by
        rw [hget b (by omega), specGradD_plateau (by omega) (show b < W by omega),
          if_neg (by omega), if_neg (by omega),
          plateauPix_out (Or.inr (show b < b + 1 by omega)),
          plateauPix_in (show a ≤ b - 1 by omega) (show b - 1 ≤ b by omega)]
        norm_num
      refine argmin_eq_of (by rw [hlen]; omega) ?_ ?_
      · intro j hj
        rw [hlen] at hj
        rw [hm, hget j hj, specGradD_plateau (by omega) hj]
        split_ifs
        · rw [plateauPix_out (Or.inl (show (0 : ℕ) < a from h1))]
          simp only [Int.cast_zero]
          linarith [B0 1]
        · rw [plateauPix_out (Or.inr (show b < W - 1 from h3)),
            plateauPix_out (Or.inr (show b < W - 2 from hb3))]
          norm_num
        · linarith [B0 (j + 1), B1 (j - 1)]
      · intro j hj
        rw [hm, hget j (by omega), specGradD_plateau (by omega) (show j < W by omega)]
        split_ifs with hj0 hjW
        · rw [plateauPix_out (Or.inl (show (0 : ℕ) < a from h1))]
          simp only [Int.cast_zero]
          linarith [B0 1]
        · exfalso
          omega
        · by_cases hc : a ≤ j - 1 ∧ j - 1 ≤ b
          · rw [plateauPix_in hc.1 hc.2,
              plateauPix_in (show a ≤ j + 1 by omega) (show j + 1 ≤ b by omega)]
            norm_num
          · rw [plateauPix_out (show j - 1 < a ∨ b < j - 1 by omega)]
            simp only [Int.cast_zero]
            linarith [B0 (j + 1)]
    · rw [if_neg (by omega)]
      have hab2 : a = b := by omega
      have hm : (specGradient (plateau W a b)).getD (b + 1) 0 = -255 / 2 := by
        rw [hget (b + 1) (by omega), specGradD_plateau (by omega) (show b + 1 < W by omega),
          if_neg (by omega), if_neg (by omega),
          show b + 1 + 1 = b + 2 by omega, show b + 1 - 1 = b by omega,
          plateauPix_out (Or.inr (show b < b + 2 by omega)),
          plateauPix_in h2 le_rfl]
        norm_num
      refine argmin_eq_of (by rw [hlen]; omega) ?_ ?_
      · intro j hj
        rw [hlen] at hj
        rw [hm, hget j hj, specGradD_plateau (by omega) hj]
        split_ifs
        · rw [plateauPix_out (Or.inl (show (0 : ℕ) < a from h1))]
          simp only [Int.cast_zero]
          linarith [B0 1]
        · rw [plateauPix_out (Or.inr (show b < W - 1 from h3)),
            plateauPix_out (Or.inr (show b < W - 2 from hb3))]
          norm_num
        · linarith [B0 (j + 1), B1 (j - 1)]
      · intro j hj
        rw [hm, hget j (by omega), specGradD_plateau (by omega) (show j < W by omega)]
        split_ifs
        · rw [plateauPix_out (Or.inl (show (0 : ℕ) < a from h1))]
          simp only [Int.cast_zero]
          linarith [B0 1]
        · exfalso
          omega
        · rw [plateauPix_out (show j - 1 < a ∨ b < j - 1 by omega)]
          simp only [Int.cast_zero]
          linarith [B0 (j + 1)]

/-- The center column never exceeds the width. -/
lemma center_le_length (s : List Pixel) : center_x s ≤ s.length :=
  Nat.div_le_self s.length 2

/-- `right_edge` returns the first bright column of the rightward scan. -/
lemma right_edge_eq_find {s : List Pixel} {k : ℕ} (h1 : center_x s ≤ k)
    (h2 : k < s.length) (h3 : brightAt s k = true)
    (h4 : ∀ j, center_x s ≤ j → j < k → brightAt s j = false) :
    right_edge s = k := by
  unfold right_edge rightScanCols
  rw [find?_range'_eq_some (brightAt s) (s.length - center_x s) (center_x s) k h1
    (by have := center_le_length s; omega) h3 h4]
  rfl

/-- `right_edge` falls back to the center when the rightward scan finds no
bright column. -/
lemma right_edge_eq_center {s : List Pixel}
    (h : ∀ j, center_x s ≤ j → j < s.length → brightAt s j = false) :
    right_edge s = center_x s := by
  unfold right_edge rightScanCols
  rw [find?_range'_eq_none (brightAt s) _ _
    (fun j hj1 hj2 => h j hj1 (by have := center_le_length s; omega))]
  rfl

/-- `left_edge` returns the first bright column of the leftward scan. -/
lemma left_edge_eq_find {s : List Pixel} {k : ℕ} (h1 : 1 ≤ k)
    (h2 : k ≤ center_x s) (h3 : brightAt s k = true)
    (h4 : ∀ j, k < j → j ≤ center_x s → brightAt s j = false) :
    left_edge s = k := by
  unfold left_edge leftScanCols
  rw [find?_rev_range'_eq_some (brightAt s) (center_x s) k h1 h2 h3 h4]
  rfl

/-- `left_edge` falls back to the center when the leftward scan finds no
bright column. -/
lemma left_edge_eq_center {s : List Pixel}
    (h : ∀ j, 1 ≤ j → j ≤ center_x s → brightAt s j = false) :
    left_edge s = center_x s := by
  unfold left_edge leftScanCols
  rw [find?_rev_range'_eq_none (brightAt s) _ h]
  rfl

/-- The returned left edge is never right of the center. -/
lemma left_edge_le_center (s : List Pixel) : left_edge s ≤ center_x s := by
  unfold left_edge
  cases hf : (leftScanCols s).find? (brightAt s) with
  | none => exact le_rfl
  | some x =>
    have hx := List.mem_of_find?_eq_some hf
    unfold leftScanCols at hx
    rw [List.mem_reverse, List.mem_range'_1] at hx
    simp only [Option.getD_some]
    omega

/-- On an image at least two pixels wide, the returned left edge is at least
column 1. -/
lemma one_le_left_edge {s : List Pixel} (h2 : 2 ≤ s.length) : 1 ≤ left_edge s := by
  have hc : 1 ≤ center_x s := by unfold center_x; omega
  unfold left_edge
  cases hf : (leftScanCols s).find? (brightAt s) with
  | none => exact hc
  | some x =>
    have hx := List.mem_of_find?_eq_some hf
    unfold leftScanCols at hx
    rw [List.mem_reverse, List.mem_range'_1] at hx
    simp only [Option.getD_some]
    omega

/-- The returned right edge is never left of the center. -/
lemma center_le_right_edge (s : List Pixel) : center_x s ≤ right_edge s := by
  unfold right_edge
  cases hf : (rightScanCols s).find? (brightAt s) with
  | none => exact le_rfl
  | some x =>
    have hx := List.mem_of_find?_eq_some hf
    unfold rightScanCols at hx
    rw [List.mem_range'_1] at hx
    simp only [Option.getD_some]
    omega

/-- On a uniformly black scanline no column is bright. -/
lemma brightAt_of_zero {s : List Pixel} (h : ∀ p ∈ s, combined p = 0) (j : ℕ) :
    brightAt s j = false := by
  unfold brightAt
  rw [decide_eq_false_iff_not, not_lt]
  by_cases hj : j < s.length
  · rw [h _ (getD_mem (0, 0, 0) hj)]
    omega
  · rw [List.getD_eq_getElem?_getD, List.getElem?_eq_none (by omega)]
    show combined (0, 0, 0) ≤ 10
    decide

/-! ### Claims about the threshold-scan policy (`measure_disk.py`) -/

/-- Claim C2, counterexample: on the width-5 scanline that is 0 everywhere
except a combined-brightness-255 plateau on columns `[1, 3]`, with the scan
starting at the plateau's center (column 2), `measure_occulting_disk` does
not return `left_edge = 1`, `right_edge = 3`, diameter `3 - 1`: the starting
sample itself is bright, so both scans stop immediately at the center and
the diameter is 0. -/
theorem C2_threshold_plateau_counterexample :
    left_edge sampleBrightPlateau = 2 ∧
    right_edge sampleBrightPlateau = 2 ∧
    measure_occulting_disk sampleBrightPlateau = 0 ∧
    ¬(left_edge sampleBrightPlateau = 1 ∧ right_edge sampleBrightPlateau = 3 ∧
      measure_occulting_disk sampleBrightPlateau = 3 - 1) := by
  decide

/-- Claim C2 (amended): for a scanline that is 0 everywhere except a
combined-brightness-255 plateau on `[a, b]`, with the scan start
`center_x = width // 2` equal to the plateau's center, the very first
sample each scan examines is the center itself, which already exceeds the
threshold; both edges therefore equal the scan start and the reported
diameter is 0, not `b - a`. -/
theorem C2_threshold_plateau_amended (s : List Pixel) (a b : ℕ) (h2 : a ≤ b)
    (h3 : b < s.length)
    (hplat : ∀ x, x < s.length →
      combined (s.getD x (0, 0, 0)) = if a ≤ x ∧ x ≤ b then 255 else 0)
    (hcen : center_x s = (a + b) / 2) :
    left_edge s = center_x s ∧ right_edge s = center_x s ∧
      measure_occulting_disk s = 0 := by
  have hc1 : a ≤ center_x s := by omega
  have hc2 : center_x s ≤ b := by omega
  have hcW : center_x s < s.length := by omega
  have hbright : brightAt s (center_x s) = true := by
    unfold brightAt
    rw [hplat (center_x s) hcW, if_pos ⟨hc1, hc2⟩]
    decide
  have hr : right_edge s = center_x s :=
    right_edge_eq_find le_rfl hcW hbright fun j hj1 hj2 => absurd hj2 (by omega)
  have hl : left_edge s = center_x s := by
    rcases Nat.eq_zero_or_pos (center_x s) with h0 | hpos
    · exact left_edge_eq_center fun j hj1 hj2 => absurd hj1 (by omega)
    · exact left_edge_eq_find hpos le_rfl hbright fun j hj1 hj2 => absurd hj1 (by omega)
  refine ⟨hl, hr, ?_⟩
  unfold measure_occulting_disk
  rw [hl, hr]
  omega

/-- Claim C2 witness: the amended statement evaluated on the concrete
width-5 plateau scanline. -/
theorem C2_threshold_plateau_amended_witness :
    (1 ≤ 3 ∧ 3 < sampleBrightPlateau.length ∧
      (∀ x, x < sampleBrightPlateau.length →
        combined (sampleBrightPlateau.getD x (0, 0, 0)) =
          if 1 ≤ x ∧ x ≤ 3 then 255 else 0) ∧
      center_x sampleBrightPlateau = (1 + 3) / 2) ∧
    (left_edge sampleBrightPlateau = center_x sampleBrightPlateau ∧
      right_edge sampleBrightPlateau = center_x sampleBrightPlateau ∧
      measure_occulting_disk sampleBrightPlateau = 0) :=
  ⟨⟨by decide, by decide, by decide, by decide⟩,
    C2_threshold_plateau_amended sampleBrightPlateau 1 3 (by decide) (by decide)
      (by decide) (by decide)⟩

/-- Claim C3: whenever some column at or right of `center_x` is bright
(combined brightness over 10), `right_edge` is the least such column;
symmetrically, whenever some column in the scanned range `[1, center_x]` is
bright, `left_edge` is the greatest such column — the first one the
leftward scan encounters. -/
theorem C3_threshold_first_crossing (s : List Pixel) :
    ((∃ x, center_x s ≤ x ∧ x < s.length ∧ brightAt s x = true) →
      center_x s ≤ right_edge s ∧ right_edge s < s.length ∧
        brightAt s (right_edge s) = true ∧
        ∀ j, center_x s ≤ j → j < right_edge s → brightAt s j = false) ∧
    ((∃ x, 1 ≤ x ∧ x ≤ center_x s ∧ brightAt s x = true) →
      1 ≤ left_edge s ∧ left_edge s ≤ center_x s ∧
        brightAt s (left_edge s) = true ∧
        ∀ j, left_edge s < j → j ≤ center_x s → brightAt s j = false) := by
  constructor
  · intro h
    obtain ⟨hk1, hk2, hk3⟩ := Nat.find_spec h
    have hmin : ∀ j, center_x s ≤ j → j < Nat.find h → brightAt s j = false := by
      intro j hj1 hj2
      cases hbj : brightAt s j with
      | false => rfl
      | true => exact absurd ⟨hj1, by omega, hbj⟩ (Nat.find_min h hj2)
    have he : right_edge s = Nat.find h := right_edge_eq_find hk1 hk2 hk3 hmin
    rw [he]
    exact ⟨hk1, hk2, hk3, hmin⟩
  · intro h
    obtain ⟨x, hx1, hx2, hx3⟩ := h
    have hpos : 0 < Nat.findGreatest (fun y => 0 < y ∧ brightAt s y = true) (center_x s) :=
      Nat.findGreatest_pos.mpr ⟨x, by omega, hx2, by omega, hx3⟩
    obtain ⟨hle, hne, hgt⟩ := (Nat.findGreatest_eq_iff
      (P := fun y => 0 < y ∧ brightAt s y = true) (k := center_x s)
      (m := Nat.findGreatest (fun y => 0 < y ∧ brightAt s y = true) (center_x s))).mp rfl
    have hPk := hne (by omega)
    have hmin : ∀ j,
        Nat.findGreatest (fun y => 0 < y ∧ brightAt s y = true) (center_x s) < j →
        j ≤ center_x s → brightAt s j = false := by
      intro j hj1 hj2
      cases hbj : brightAt s j with
      | false => rfl
      | true => exact absurd ⟨by omega, hbj⟩ (hgt hj1 hj2)
    have he := left_edge_eq_find (by omega) hle hPk.2 hmin
    rw [he]
    exact ⟨by omega, hle, hPk.2, hmin⟩

/-- Claim C3 witness: the first-crossing characterization evaluated on the
concrete dark-disk scanline (center 3; crossings at columns 5 and 1). -/
theorem C3_threshold_first_crossing_witness :
    (center_x sampleDarkDisk ≤ 5 ∧ 5 < sampleDarkDisk.length ∧
      brightAt sampleDarkDisk 5 = true) ∧
    (center_x sampleDarkDisk ≤ right_edge sampleDarkDisk ∧
      right_edge sampleDarkDisk < sampleDarkDisk.length ∧
      brightAt sampleDarkDisk (right_edge sampleDarkDisk) = true ∧
      ∀ j, center_x sampleDarkDisk ≤ j → j < right_edge sampleDarkDisk →
        brightAt sampleDarkDisk j = false) ∧
    (1 ≤ left_edge sampleDarkDisk ∧
      left_edge sampleDarkDisk ≤ center_x sampleDarkDisk ∧
      brightAt sampleDarkDisk (left_edge sampleDarkDisk) = true ∧
      ∀ j, left_edge sampleDarkDisk < j → j ≤ center_x sampleDarkDisk →
        brightAt sampleDarkDisk j = false) :=
  ⟨by decide,
    (C3_threshold_first_crossing sampleDarkDisk).1 ⟨5, by decide, by decide, by decide⟩,
    (C3_threshold_first_crossing sampleDarkDisk).2 ⟨1, by decide, by decide, by decide⟩⟩

/-- Claim C5: when a scan direction finds no bright sample, its edge
silently keeps the initial value `center_x`; in particular on a uniformly
zero scanline both edges equal the center and the reported diameter is 0. -/
theorem C5_threshold_fallback (s : List Pixel) :
    ((∀ j, center_x s ≤ j → j < s.length → brightAt s j = false) →
      right_edge s = center_x s) ∧
    ((∀ j, 1 ≤ j → j ≤ center_x s → brightAt s j = false) →
      left_edge s = center_x s) ∧
    ((∀ p ∈ s, combined p = 0) →
      left_edge s = center_x s ∧ right_edge s = center_x s ∧
        measure_occulting_disk s = 0) := by
  refine ⟨right_edge_eq_center, left_edge_eq_center, fun h => ?_⟩
  have hb := brightAt_of_zero h
  have hl : left_edge s = center_x s := left_edge_eq_center fun j _ _ => hb j
  have hr : right_edge s = center_x s := right_edge_eq_center fun j _ _ => hb j
  refine ⟨hl, hr, ?_⟩
  unfold measure_occulting_disk
  rw [hl, hr]
  omega

/-- Claim C5 witness: the fallback evaluated on the concrete uniformly zero
scanline of width 4 (center 2). -/
theorem C5_threshold_fallback_witness :
    (∀ p ∈ sampleZero, combined p = 0) ∧
    (left_edge sampleZero = center_x sampleZero ∧
      right_edge sampleZero = center_x sampleZero ∧
      measure_occulting_disk sampleZero = 0) :=
  ⟨by decide, (C5_threshold_fallback sampleZero).2.2 (by decide)⟩

/-- Claim C9, counterexample: on a width-1 image whose only (and bright)
pixel is at column 0, the leftward scan is empty, `left_edge` is the
fallback `center_x = 0`, and the claimed invariant `1 ≤ left_edge` fails —
so `left_edge` does not lie in `[1, center_x]` for every input. -/
theorem C9_left_scan_counterexample :
    brightAt [((255 : ℕ), (0 : ℕ), (0 : ℕ))] 0 = true ∧
    left_edge [((255 : ℕ), (0 : ℕ), (0 : ℕ))] = 0 ∧
    center_x [((255 : ℕ), (0 : ℕ), (0 : ℕ))] = 0 ∧
    ¬(1 ≤ left_edge [((255 : ℕ), (0 : ℕ), (0 : ℕ))]) := by
  decide

/-- Claim C9 (amended): the leftward scan visits exactly the columns
`center_x, ..., 1` and never column 0; an image whose only bright column
is 0 yields the fallback `left_edge = center_x`; and for every image of
width at least 2 the returned left edge lies in `[1, center_x]` (on
narrower images `center_x = 0` and the left edge is 0). -/
theorem C9_left_scan_amended (s : List Pixel) :
    (0 ∉ leftScanCols s ∧ ∀ x ∈ leftScanCols s, 1 ≤ x ∧ x ≤ center_x s) ∧
    ((∀ x, brightAt s x = true → x = 0) → left_edge s = center_x s) ∧
    (2 ≤ s.length → 1 ≤ left_edge s ∧ left_edge s ≤ center_x s) := by
  have hmem : ∀ x ∈ leftScanCols s, 1 ≤ x ∧ x ≤ center_x s := by
    intro x hx
    unfold leftScanCols at hx
    rw [List.mem_reverse, List.mem_range'_1] at hx
    omega
  refine ⟨⟨fun h0 => by have := hmem 0 h0; omega, hmem⟩, fun h => ?_,
    fun h2 => ⟨one_le_left_edge h2, left_edge_le_center s⟩⟩
  refine left_edge_eq_center fun j hj1 hj2 => ?_
  cases hbj : brightAt s j with
  | false => rfl
  | true => exact absurd (h j hbj) (by omega)

/-- Claim C9 witness: the amended statement evaluated on the concrete
dark-disk scanline of width 7. -/
theorem C9_left_scan_amended_witness :
    ((∀ x, brightAt sampleDarkDisk x = true → x = 0) →
      left_edge sampleDarkDisk = center_x sampleDarkDisk) ∧
    2 ≤ sampleDarkDisk.length ∧
    (1 ≤ left_edge sampleDarkDisk ∧
      left_edge sampleDarkDisk ≤ center_x sampleDarkDisk) :=
  ⟨(C9_left_scan_amended sampleDarkDisk).2.1, by decide,
    (C9_left_scan_amended sampleDarkDisk).2.2 (by decide)⟩

/-- Claim C10: for every input scanline the threshold-scan edges straddle
the center, `left_edge ≤ center_x ≤ right_edge`, so the reported diameter
is never negative. -/
theorem C10_edges_straddle_center (s : List Pixel) :
    left_edge s ≤ center_x s ∧ center_x s ≤ right_edge s ∧
      0 ≤ measure_occulting_disk s := by
  refine ⟨left_edge_le_center s, center_le_right_edge s, ?_⟩
  have h1 := left_edge_le_center s
  have h2 := center_le_right_edge s
  unfold measure_occulting_disk
  omega

/-! ### Claim about the browser-automation script -/

/-- Claim C8: if navigation raises, or navigation succeeds and the
screenshot raises, the exception message is printed to standard output, and
on every path — error or success — the browser is closed before `run`
returns. -/
theorem C8_browser_error_handling :
    (∀ g shot, (run g shot).browserClosed = true) ∧
    (∀ e shot, (run (Except.error e) shot).printed = ["An error occurred: " ++ e]) ∧
    (∀ e, (run (Except.ok ()) (Except.error e)).printed = ["An error occurred: " ++ e]) ∧
    (run (Except.ok ()) (Except.ok ())).printed = [] := by
  refine ⟨fun g shot => ?_, fun e shot => rfl, fun e => rfl, rfl⟩
  cases g with
  | error e => rfl
  | ok u =>
    cases shot with
    | error e => rfl
    | ok v => rfl

/-! ### Claims about the gradient-extremum policy (`measure_sun.py`) -/

/-- Claim C1, counterexample: on the width-6 plateau with `a = 2`, `b = 3`
(so `0 < a ≤ b < W - 1`), the gradient-extremum policy returns
`left_edge = 1 = a - 1`, not `a = 2`: the central difference has the same
maximal value at `a - 1` and at `a`, and `np.argmax` returns the first of
the two. -/
theorem C1_plateau_counterexample :
    (0 < 2 ∧ 2 ≤ 3 ∧ 3 < 6 - 1) ∧
    sunEdges (plateau 6 2 3) = some (1, 3) ∧
    sunEdges (plateau 6 2 3) ≠ some (2, 3) := by
  have heq : sunEdges (plateau 6 2 3) = some (1, 3) := by
    rw [sunEdges_eq_spec (by rw [plateau_length]; omega),
      plateau_argmax (by omega) (by omega) (by omega),
      plateau_argmin (by omega) (by omega) (by omega)]
    norm_num
  refine ⟨by decide, heq, ?_⟩
  rw [heq]
  decide

/-- Claim C1 (amended): on a plateau of value 255 over `[a, b]` in a zero
sequence of width `W` with `0 < a ≤ b < W - 1`, the gradient-extremum policy
returns `left_edge = a - 1` (first occurrence of the maximal gradient), and
`right_edge = b` when `a < b` and `b < W - 2`, but `right_edge = b + 1` when
the plateau is a single sample (`a = b`) or abuts the right boundary
(`b = W - 2`). -/
theorem C1_plateau_edges_amended (W a b : ℕ) (h1 : 0 < a) (h2 : a ≤ b)
    (h3 : b < W - 1) :
    sunEdges (plateau W a b) =
      some (a - 1, if a < b ∧ b < W - 2 then b else b + 1) := by
  rw [sunEdges_eq_spec (by rw [plateau_length]; omega),
    plateau_argmax h1 h2 h3, plateau_argmin h1 h2 h3]

/-- Claim C1 witness: the amended statement evaluated at `W = 6`, `a = 2`,
`b = 3`. -/
theorem C1_plateau_edges_amended_witness :
    (0 < 2 ∧ 2 ≤ 3 ∧ 3 < 6 - 1) ∧
    sunEdges (plateau 6 2 3) = some (2 - 1, if 2 < 3 ∧ 3 < 6 - 2 then 3 else 3 + 1) :=
  ⟨⟨by decide, by decide, by decide⟩,
    C1_plateau_edges_amended 6 2 3 (by decide) (by decide) (by decide)⟩

/-- Claim C4: on every sequence of length at least two, the gradient
computed by `measure_sun_disk` is exactly the central-difference gradient
with one-sided differences at the two boundary samples, the left edge is
the index of its maximum, the right edge the index of its minimum, and the
diameter their difference. -/
theorem C4_gradient_definition (l : List ℤ) (h : 2 ≤ l.length) :
    npGradient l = some (specGradient l) ∧
    sunEdges l = some (argmax (specGradient l), argmin (specGradient l)) ∧
    measure_sun_disk l =
      some ((argmin (specGradient l) : ℤ) - (argmax (specGradient l) : ℤ)) := by
  refine ⟨npGradient_eq_spec h, sunEdges_eq_spec h, ?_⟩
  unfold measure_sun_disk
  rw [sunEdges_eq_spec h]
  rfl

/-- Claim C4 witness: the gradient characterization evaluated on the
concrete sequence `[255, 0, 255]`. -/
theorem C4_gradient_definition_witness :
    2 ≤ ([255, 0, 255] : List ℤ).length ∧
    (npGradient [255, 0, 255] = some (specGradient [255, 0, 255]) ∧
      sunEdges [255, 0, 255] =
        some (argmax (specGradient [255, 0, 255]),
          argmin (specGradient [255, 0, 255])) ∧
      measure_sun_disk [255, 0, 255] =
        some ((argmin (specGradient [255, 0, 255]) : ℤ) -
          (argmax (specGradient [255, 0, 255]) : ℤ))) :=
  ⟨by decide, C4_gradient_definition [255, 0, 255] (by decide)⟩

/-- Claim C6: there is an input sequence on which the gradient-extremum
policy places the minimum of the gradient strictly left of the maximum, so
the returned diameter `right_edge - left_edge` is negative: a bright
background with a dark center (`[255, 0, 255]`) yields edges `(2, 0)` and
diameter `-2`. -/
theorem C6_negative_diameter_exists :
    ∃ (l : List ℤ) (lft rgt : ℕ),
      sunEdges l = some (lft, rgt) ∧ rgt < lft ∧
      measure_sun_disk l = some ((rgt : ℤ) - (lft : ℤ)) ∧
      ((rgt : ℤ) - (lft : ℤ)) < 0 := by
  have hg : specGradient ([255, 0, 255] : List ℤ) = [(-255 : ℚ), 0, 255] := by
    show (List.range 3).map (specGradD [255, 0, 255]) = [(-255 : ℚ), 0, 255]
    rw [show List.range 3 = [0, 1, 2] by decide]
    simp only [List.map_cons, List.map_nil]
    unfold specGradD
    norm_num [List.getD_cons_zero, List.getD_cons_succ]
  have hmax : argmax [(-255 : ℚ), 0, 255] = 2 := by
    refine argmax_eq_of (by norm_num) ?_ ?_
    · intro j hj
      simp only [List.length_cons, List.length_nil] at hj
      interval_cases j <;> norm_num [List.getD_cons_zero, List.getD_cons_succ]
    · intro j hj
      interval_cases j <;> norm_num [List.getD_cons_zero, List.getD_cons_succ]
  have hmin : argmin [(-255 : ℚ), 0, 255] = 0 := by
    refine argmin_eq_of (by norm_num) ?_ ?_
    · intro j hj
      simp only [List.length_cons, List.length_nil] at hj
      interval_cases j <;> norm_num [List.getD_cons_zero, List.getD_cons_succ]
    · intro j hj
      exact absurd hj (Nat.not_lt_zero j)
  have he : sunEdges ([255, 0, 255] : List ℤ) = some (2, 0) := by
    rw [sunEdges_eq_spec (by decide), hg, hmax, hmin]
  refine ⟨[255, 0, 255], 2, 0, he, by omega, ?_, by decide⟩
  unfold measure_sun_disk
  rw [he]
  rfl

/-- Claim C7: on every sequence of length at least 2 — plateaus touching
either boundary included — every gradient entry is computed from in-range
accesses only, and the whole gradient is defined, with one value per
sample of the sequence. -/
theorem C7_gradient_total (l : List ℤ) (h : 2 ≤ l.length) :
    (∀ i, i < l.length → (gradAt l i).isSome = true) ∧
    ∃ g, npGradient l = some g ∧ g.length = l.length := by
  refine ⟨fun i hi => ?_, specGradient l, npGradient_eq_spec h, specGradient_length l⟩
  rw [gradAt_eq_specGradD h hi]
  rfl

/-- Claim C7 witness: the in-range property evaluated on the concrete
sequence `[255, 255, 0]`, whose plateau touches index 0. -/
theorem C7_gradient_total_witness :
    2 ≤ ([255, 255, 0] : List ℤ).length ∧
    ((∀ i, i < ([255, 255, 0] : List ℤ).length →
        (gradAt [255, 255, 0] i).isSome = true) ∧
      ∃ g, npGradient [255, 255, 0] = some g ∧
        g.length = ([255, 255, 0] : List ℤ).length) :=
  ⟨by decide, C7_gradient_total [255, 255, 0] (by decide)⟩

end Heliosphere
